import Mathlib

/-
Verification of the audio acquisition / transcription pipeline of the
`chat_new` repository (src/components/AudioManager.tsx) against its
natural-language specification.

The TypeScript source is shallowly embedded: JavaScript strings are Lean
`String`s, JS string helpers (`trim`, `toLowerCase`, `split('\n')`,
`indexOf`, `Array.join('\n')`) are modelled by executable Lean functions
below, JS numbers are rationals (with an explicit NaN/Infinity-aware type
where the code can produce those), and the React state setters invoked by
the component are modelled either as explicit state-update functions or as
emitted action traces, in source order.
-/

/-! ## JS string primitives (models of the string operations the source uses) -/

/-- Model of JS `String.prototype.toLowerCase` (ASCII case folding). -/
def jsToLower (s : String) : String := String.mk (s.toList.map Char.toLower)

/-- Characters removed by JS `String.prototype.trim`. -/
def isJsWhitespace (c : Char) : Bool :=
  c == ' ' || c == '\t' || c == '\n' || c == '\r' || c == '\x0b' || c == '\x0c'

/-- Drop leading and trailing whitespace from a character list. -/
def trimChars (cs : List Char) : List Char :=
  ((cs.dropWhile isJsWhitespace).reverse.dropWhile isJsWhitespace).reverse

/-- Model of JS `String.prototype.trim`. -/
def jsTrim (s : String) : String := String.mk (trimChars s.toList)

/-- Model of JS `String.prototype.split('\n')` on the underlying characters:
`splitNl cs` is the list of newline-free segments of `cs`, in order.
JS semantics: splitting the empty string yields one empty segment. -/
def splitNl : List Char → List (List Char)
  | [] => [[]]
  | c :: rest =>
    if c = '\n' then [] :: splitNl rest
    else
      match splitNl rest with
      | [] => [[c]]
      | seg :: segs => (c :: seg) :: segs

/-- Model of JS `Array.prototype.join('\n')`. -/
def joinLines : List String → String
  | [] => ""
  | [x] => x
  | x :: y :: ys => x ++ "\n" ++ joinLines (y :: ys)

/-- Model of JS `String.prototype.indexOf(' ')`: index of the first space. -/
def firstSpaceIdx (cs : List Char) : Option Nat :=
  cs.findIdx? (fun c => c == ' ')

/-! ## Data model (AudioManager.tsx state shapes) -/

/-- `AudioSource` enum of the source (URL / FILE / RECORDING / TEST). -/
inductive AudioSource
  | URL
  | FILE
  | RECORDING
  | TEST
deriving DecidableEq

/-- The `audioData` state value: a decoded audio with its playback blob URL,
origin tag and MIME type. Decoded samples are modelled as a list of
rationals (their values are opaque to the orchestration layer). -/
structure DecodedAudio where
  buffer : List ℚ
  url : String
  source : AudioSource
  mimeType : String
deriving DecidableEq

/-- One entry of the `audioDataList` state (a batch item: decoded audio plus
the manifest filename and ground-truth transcription). -/
structure AudioItem where
  buffer : List ℚ
  url : String
  source : AudioSource
  mimeType : String
  filename : String
  transcription : String
deriving DecidableEq

/-- The value resolved by `props.transcriber.start` on success
(`transcribedData.text` / `transcribedData.latency`). -/
structure TranscriberData where
  text : String
  latency : ℚ
deriving DecidableEq

/-- Possible outcomes of one `await props.transcriber.start(...)` call in
`transcribeAllFiles`: the promise rejects (caught), resolves with a falsy
value (the `else` branch logging a failure), or resolves with data. -/
inductive StartOutcome
  | throws
  | noData
  | ok (d : TranscriberData)
deriving DecidableEq

/-- One element of the `transcriptionResults` state for a successful item. -/
structure BatchRecord where
  filename : String
  groundTruth : String
  transcription : String
  latency : ℚ
deriving DecidableEq

/-! ## URL download path (`downloadAudioFromUrl`, lines 222-251)

Source:
```
let mimeType = headers["content-type"];
if (!mimeType || mimeType === "audio/wave") { mimeType = "audio/wav"; }
setAudioFromDownload(data, mimeType);
```
A missing `content-type` header is modelled as the empty string; JS `!s`
is true exactly for the empty string among strings. -/

/-- The MIME rewriting performed on the response-declared content type. -/
def normalizeMime (m : String) : String :=
  if m = "" ∨ m = "audio/wave" then "audio/wav" else m

/-- The `audioData` value installed by `setAudioFromDownload` when a URL
download succeeds: the decoded buffer, the created blob URL, source `URL`,
and the (already normalized) MIME type passed in. -/
def downloadAudioResult (samples : List ℚ) (blobUrl : String) (contentType : String) :
    DecodedAudio :=
  { buffer := samples
    url := blobUrl
    source := AudioSource.URL
    mimeType := normalizeMime contentType }

/-! ## Batch evaluation (`transcribeAllFiles`, lines 267-309)

The loop body is modelled per index `i`: the `start` outcome for item `i`
is given by an oracle `ℕ → StartOutcome`.  Each iteration appends one
element to `transcriptionResults` (a `BatchRecord` on success, `none`
modelling the uninitialized `result` variable pushed on failure) and sets
`testProgress` to `((i + 1) / totalFiles) * 100`. -/

/-- The record pushed for one item: `some` with the transcription and
latency on success, `none` (the uninitialized `result`) when `start` threw
or resolved with a falsy value. -/
def batchStep (item : AudioItem) (out : StartOutcome) : Option BatchRecord :=
  match out with
  | StartOutcome.ok d =>
      some { filename := item.filename
             groundTruth := item.transcription
             transcription := d.text
             latency := d.latency }
  | _ => none

/-- One loop iteration: the pushed record and the progress value
`((i + 1) / total) * 100` set after the item settles. -/
def batchStepAt (total : ℕ) (i : ℕ) (item : AudioItem) (out : StartOutcome) :
    Option BatchRecord × ℚ :=
  (batchStep item out, (((i : ℚ) + 1) / (total : ℚ)) * 100)

/-- The loop of `transcribeAllFiles`, processing items sequentially from
index `i`. -/
def batchLoop (total : ℕ) (oracle : ℕ → StartOutcome) : ℕ → List AudioItem →
    List (Option BatchRecord × ℚ)
  | _, [] => []
  | i, item :: rest => batchStepAt total i item (oracle i) :: batchLoop total oracle (i + 1) rest

/-- `transcribeAllFiles`: per item, the record appended to
`transcriptionResults` paired with the progress value reported after it. -/
def transcribeAllFiles (items : List AudioItem) (oracle : ℕ → StartOutcome) :
    List (Option BatchRecord × ℚ) :=
  batchLoop items.length oracle 0 items

/-- The final `transcriptionResults` list, in push order. -/
def batchResults (items : List AudioItem) (oracle : ℕ → StartOutcome) :
    List (Option BatchRecord) :=
  (transcribeAllFiles items oracle).map Prod.fst

/-- The sequence of values passed to `setTestProgress` during one run:
`0` on entry, then one value per item. -/
def batchProgressTrace (items : List AudioItem) (oracle : ℕ → StartOutcome) : List ℚ :=
  0 :: (transcribeAllFiles items oracle).map Prod.snd

/-! ## Exported batch report (`CopyButton`, lines 450-479)

Source:
```
props.transcriptionResults.map(data =>
  `${data.latency}\n${data.groundTruth.toLowerCase().trim()}\n${data.transcription.toLowerCase().trim()}`
).join('\n');
```
The claimed parser splits the text on newlines and groups consecutive
triples of lines back into records. -/

/-- JS template interpolation `${data.latency}` of the latency number. -/
def latencyToString (q : ℚ) : String := toString q

/-- The three-line block built for one (successful) result record. -/
def formatRecord (r : BatchRecord) : String :=
  latencyToString r.latency ++ "\n" ++ jsTrim (jsToLower r.groundTruth) ++ "\n" ++
    jsTrim (jsToLower r.transcription)

/-- The full exported report text. -/
def exportReport (rs : List BatchRecord) : String :=
  joinLines (rs.map formatRecord)

/-- Group a line list into consecutive triples (dropping an incomplete tail). -/
def chunk3 : List String → List (String × String × String)
  | a :: b :: c :: rest => (a, b, c) :: chunk3 rest
  | _ => []

/-- Parse an exported report back: split on newlines, group lines in threes. -/
def parseReport (s : String) : List (String × String × String) :=
  chunk3 ((splitNl s.toList).map String.mk)

/-- The triple of strings the round-trip claim expects to recover for a
successfully transcribed record. -/
def recordStrings (r : BatchRecord) : String × String × String :=
  (latencyToString r.latency, jsTrim (jsToLower r.groundTruth), jsTrim (jsToLower r.transcription))

/-- A record none of whose three exported line strings contains a newline. -/
def newlineFree (r : BatchRecord) : Prop :=
  '\n' ∉ (latencyToString r.latency).toList ∧
    '\n' ∉ (jsTrim (jsToLower r.groundTruth)).toList ∧
      '\n' ∉ (jsTrim (jsToLower r.transcription)).toList

/-! ## Bulk test-corpus adapter (`TestTile.handleClick`, lines 682-740)

The environment supplies the outcome of the manifest fetch (`fetch` +
`response.text()`, the outer `try`) and, per manifest filename, the
combined outcome of the audio fetch + `arrayBuffer()` + `decodeAudioData`
(the inner `try`): on success, the decoded samples and the value of
`audioResponse.headers.get('Content-Type')` (`none` models a null
header). -/

structure TestEnv where
  manifest : Except Unit String
  audioFetch : String → Except Unit (List ℚ × Option String)

/-- The base path prefix used for audio resource URLs. -/
def audioFilesPath : String := "test-clean/"

/-- The manifest lines actually iterated: split on newlines, blank
(whitespace-only) lines filtered out. -/
def manifestLines (text : String) : List String :=
  ((splitNl text.toList).map String.mk).filter (fun line => jsTrim line ≠ "")

/-- `audioResponse.headers.get('Content-Type') || 'audio/wav'`: a null or
empty header falls back to `audio/wav`. -/
def headerMime (h : Option String) : String :=
  match h with
  | none => "audio/wav"
  | some s => if s = "" then "audio/wav" else s

/-- The per-line loop body of `handleClick`: lines without a space are
skipped (`continue`), a failed audio fetch/decode is caught, logged and
skipped, a successful one appends one item; the loop always continues to
the remaining lines. -/
def collectItems (env : TestEnv) : List String → List AudioItem
  | [] => []
  | line :: rest =>
    match firstSpaceIdx line.toList with
    | none => collectItems env rest
    | some idx =>
      let filename := String.mk (line.toList.take idx)
      let transcription := jsTrim (String.mk (line.toList.drop (idx + 1)))
      match env.audioFetch filename with
      | Except.error _ => collectItems env rest
      | Except.ok (samples, hdr) =>
        { buffer := samples
          url := audioFilesPath ++ filename ++ ".flac"
          source := AudioSource.TEST
          mimeType := headerMime hdr
          filename := filename
          transcription := transcription } :: collectItems env rest

/-- `TestTile.handleClick`: on manifest success the assembled item list is
handed to `onFilesLoaded` (`some list`); if the manifest fetch itself
throws, the outer catch only logs and the callback is never invoked
(`none`: no list is produced). -/
def testTileHandleClick (env : TestEnv) : Option (List AudioItem) :=
  match env.manifest with
  | Except.error _ => none
  | Except.ok text => some (collectItems env (manifestLines text))

/-! ## URL load cancellation (`useEffect` on `audioDownloadUrl`, lines 312-320,
and `downloadAudioFromUrl`, lines 222-251)

Each submitted URL becomes a numbered load. A load's axios promise settles
with success (response bytes + declared content type), failure, or the
abort rejection. The trace model encodes the React/axios semantics the
source relies on:
- effect bodies run in submission order, so load ids are issued 0, 1, 2, ...;
- a settle can only follow its own start;
- the effect cleanup calls `requestAbortController.abort()` before the next
  effect body runs, and aborting a still-pending axios call forces that
  call to settle with the abort rejection — so any load that is still
  unsettled when a newer load starts settles as `aborted`.
State updates, from the source: starting a load runs
`setAudioData(undefined); setProgress(0)`; a success runs
`setAudioFromDownload` (installing the decoded audio) and the `finally`
clears progress; failure and abort hit the catch (log only) and the
`finally` clears progress. -/

inductive FetchOutcome
  | success (samples : List ℚ) (blobUrl : String) (contentType : String)
  | failure
  | aborted
deriving DecidableEq

inductive UrlEvent
  | start (id : ℕ)
  | settle (id : ℕ) (out : FetchOutcome)
deriving DecidableEq

/-- The slice of Audio Session State touched by the URL path. -/
structure SessState where
  audioData : Option DecodedAudio
  progress : Option ℚ
deriving DecidableEq

/-- Effect of one event on session state, read off `downloadAudioFromUrl`. -/
def stepUrlEvent (st : SessState) : UrlEvent → SessState
  | UrlEvent.start _ => { audioData := none, progress := some 0 }
  | UrlEvent.settle _ (FetchOutcome.success samples blobUrl ct) =>
      { audioData := some (downloadAudioResult samples blobUrl ct), progress := none }
  | UrlEvent.settle _ _ => { st with progress := none }

/-- Session state after a sequence of URL-load events. -/
def runUrlTrace (tr : List UrlEvent) : SessState :=
  tr.foldl stepUrlEvent { audioData := none, progress := none }

/-- Number of `start` events in a trace. -/
def countStarts (tr : List UrlEvent) : ℕ :=
  (tr.filter (fun e => match e with | UrlEvent.start _ => true | _ => false)).length

/-- Executable validity check for a trace of URL-load events, encoding the
semantics above: sequential ids, settles follow their starts, at most one
settle per id, and a load overlapped by a newer start settles `aborted`. -/
def validUrlTrace (tr : List UrlEvent) : Bool :=
  (List.range tr.length).all (fun k =>
    match tr[k]? with
    | some (UrlEvent.start i) => i == countStarts (tr.take k)
    | some (UrlEvent.settle i out) =>
        (List.range k).any (fun j => tr[j]? == some (UrlEvent.start i)) &&
        (List.range k).all (fun j =>
          match tr[j]? with
          | some (UrlEvent.settle i' _) => !(i' == i)
          | some (UrlEvent.start i') => !(i < i') || out == FetchOutcome.aborted
          | none => true)
    | none => true)

/-! ## Transcription Orchestrator single-flight gate (claim C7)

Modelled from the spec: the Transcription Orchestrator is the
`useTranscriber` hook, whose implementation is not among the provided
source files (AudioManager.tsx and ChatbotPage.tsx only consume its
`start` / `isBusy` / `onInputChange` interface). Per spec §4.4 and §9, a
`start` call while the orchestrator is Busy is rejected (the single-flight
gate), and a completed call clears Busy; the model counts how many
accepted `start` invocations are currently running. -/

structure OrchState where
  busy : Bool
  running : ℕ
deriving DecidableEq

inductive OrchEvent
  | startCall
  | finishCall
deriving DecidableEq

/-- Modelled from the spec: one orchestrator transition. A `startCall`
while Busy is rejected (state unchanged); otherwise it becomes Busy with
one more running invocation. A `finishCall` (the running invocation
settling) clears Busy. -/
def orchStep (s : OrchState) : OrchEvent → OrchState
  | OrchEvent.startCall =>
      if s.busy then s else { busy := true, running := s.running + 1 }
  | OrchEvent.finishCall =>
      if s.busy then { busy := false, running := s.running - 1 } else s

/-- Orchestrator state after an arbitrary interleaving of calls. -/
def orchRun (evs : List OrchEvent) : OrchState :=
  evs.foldl orchStep { busy := false, running := 0 }

/-! ## Adapter callback traces (AudioManager lines 334-377, 173-220) -/

/-- The primitive effects the adapter callbacks perform, in order:
the input-changed signal to the transcriber, the session-state setters,
and blob-handle creation/release. -/
inductive UiAction
  | onInputChange
  | setAudioData (v : Option DecodedAudio)
  | setAudioDownloadUrl (v : Option String)
  | setAudioDataList (v : List AudioItem)
  | setProgress (v : Option ℚ)
  | createObjectURL (url : String)
  | revokeObjectURL (url : String)
deriving DecidableEq

/-- Actions that mutate Audio Session State (current audio, download URL,
batch item list, load progress). -/
def isSessionMutation : UiAction → Bool
  | UiAction.setAudioData _ => true
  | UiAction.setAudioDownloadUrl _ => true
  | UiAction.setAudioDataList _ => true
  | UiAction.setProgress _ => true
  | _ => false

/-- `resetAudio` (lines 173-176). -/
def resetAudioTrace : List UiAction :=
  [UiAction.setAudioData none, UiAction.setAudioDownloadUrl none]

/-- `setAudioFromDownload` (lines 178-195): creates the blob URL, decodes,
installs the new `audioData`; no release of any previous handle. -/
def setAudioFromDownloadTrace (samples : List ℚ) (blobUrl : String) (mimeType : String) :
    List UiAction :=
  [UiAction.createObjectURL blobUrl,
   UiAction.setAudioData (some ⟨samples, blobUrl, AudioSource.URL, mimeType⟩)]

/-- `setAudioFromRecording` (lines 197-220): reset, progress 0, blob URL
creation, the FileReader progress callbacks, then decode, progress cleared
and the new `audioData` installed. -/
def setAudioFromRecordingTrace (samples : List ℚ) (blobUrl : String) (mimeType : String)
    (progressValues : List ℚ) : List UiAction :=
  resetAudioTrace ++ [UiAction.setProgress (some 0), UiAction.createObjectURL blobUrl] ++
    progressValues.map (fun p => UiAction.setProgress (some p)) ++
    [UiAction.setProgress none,
     UiAction.setAudioData (some ⟨samples, blobUrl, AudioSource.RECORDING, mimeType⟩)]

/-- `TestTile.onFilesLoaded` callback (lines 337-340). -/
def testTileCallbackTrace (items : List AudioItem) : List UiAction :=
  [UiAction.onInputChange, UiAction.setAudioDataList items]

/-- `UrlTile.onUrlUpdate` callback (lines 346-349). -/
def urlTileCallbackTrace (url : String) : List UiAction :=
  [UiAction.onInputChange, UiAction.setAudioDownloadUrl (some url)]

/-- `FileTile.onFileUpdate` callback (lines 355-363). -/
def fileTileCallbackTrace (samples : List ℚ) (blobUrl : String) (mimeType : String) :
    List UiAction :=
  [UiAction.onInputChange,
   UiAction.setAudioData (some ⟨samples, blobUrl, AudioSource.FILE, mimeType⟩)]

/-- `RecordTile.setAudioData` callback (lines 371-374): the signal, then
the whole `setAudioFromRecording` flow. -/
def recordTileCallbackTrace (samples : List ℚ) (blobUrl : String) (mimeType : String)
    (progressValues : List ℚ) : List UiAction :=
  UiAction.onInputChange :: setAudioFromRecordingTrace samples blobUrl mimeType progressValues

/-- Count of playback-handle releases in a trace. -/
def releaseCount (tr : List UiAction) : ℕ :=
  (tr.filter (fun a => match a with | UiAction.revokeObjectURL _ => true | _ => false)).length

/-! ## Progress event values (claim C10)

A JS number as produced by the two progress callbacks: NaN, Infinity, or a
finite value. -/

inductive JSNum
  | nan
  | inf
  | num (q : ℚ)
deriving DecidableEq

/-- JS division `loaded / total` on the (nonnegative integer) byte counts
of a progress event. -/
def jsDiv (loaded total : ℕ) : JSNum :=
  if total = 0 then (if loaded = 0 then JSNum.nan else JSNum.inf)
  else JSNum.num ((loaded : ℚ) / (total : ℚ))

/-- JS `x || 0`: NaN and 0 are falsy and are replaced by 0. -/
def jsOrZero (x : JSNum) : JSNum :=
  match x with
  | JSNum.nan => JSNum.num 0
  | JSNum.num q => if q = 0 then JSNum.num 0 else JSNum.num q
  | JSNum.inf => JSNum.inf

/-- `setAudioFromRecording`'s `fileReader.onprogress` handler (lines
202-204): `setProgress(event.loaded / event.total || 0)`. -/
def recordingProgressValue (loaded total : ℕ) : JSNum :=
  jsOrZero (jsDiv loaded total)

/-- `downloadAudioFromUrl`'s `onDownloadProgress` handler (lines 232-234):
`setProgress(progressEvent.progress || 0)`; the axios `progress` field is
a number or undefined (`none`). -/
def urlProgressValue (p : Option JSNum) : JSNum :=
  match p with
  | none => JSNum.num 0
  | some x => jsOrZero x

/-! ## Helper lemmas -/

lemma jsOrZero_ne_nan (x : JSNum) : jsOrZero x ≠ JSNum.nan := by
  cases x with
  | nan => simp [jsOrZero]
  | inf => simp [jsOrZero]
  | num q =>
    simp only [jsOrZero]
    split <;> simp

lemma orch_invariant (evs : List OrchEvent) (s : OrchState)
    (h : s.running = if s.busy then 1 else 0) :
    (evs.foldl orchStep s).running = if (evs.foldl orchStep s).busy then 1 else 0 := by
  induction evs generalizing s with
  | nil => simpa using h
  | cons ev rest ih =>
    apply ih
    cases ev with
    | startCall =>
      by_cases hb : s.busy
      · simpa [orchStep, hb] using h
      · simp [orchStep, hb] at h ⊢
        simp [h]
    | finishCall =>
      by_cases hb : s.busy
      · simp [orchStep, hb] at h ⊢
        simp [h]
      · simpa [orchStep, hb] using h

lemma head_onInputChange_before_mutation (rest : List UiAction) (i : ℕ) (a : UiAction)
    (hget : (UiAction.onInputChange :: rest)[i]? = some a)
    (hmut : isSessionMutation a = true) :
    ∃ j, j < i ∧ (UiAction.onInputChange :: rest)[j]? = some UiAction.onInputChange := by
  cases i with
  | zero =>
    simp only [List.getElem?_cons_zero, Option.some.injEq] at hget
    rw [← hget] at hmut
    simp [isSessionMutation] at hmut
  | succ n =>
    exact ⟨0, Nat.succ_pos n, by simp⟩

/-! ## Claim theorems -/

/-- C2: for every declared MIME string received with a URL download, an
empty or `audio/wave` value is normalized to `audio/wav` in the recorded
`DecodedAudio`'s `mimeType`, and every other MIME string is recorded
unchanged. -/
theorem url_mime_normalization (samples : List ℚ) (blobUrl : String) :
    (downloadAudioResult samples blobUrl ("")).mimeType = "audio/wav" ∧
    (downloadAudioResult samples blobUrl ("audio/wave")).mimeType = "audio/wav" ∧
    ∀ m : String, m ≠ "" → m ≠ "audio/wave" →
      (downloadAudioResult samples blobUrl m).mimeType = m := by
  refine ⟨rfl, rfl, ?_⟩
  intro m hm1 hm2
  simp [downloadAudioResult, normalizeMime, hm1, hm2]

theorem url_mime_normalization_witness :
    (downloadAudioResult [] ("blob:1") ("audio/mpeg")).mimeType = "audio/mpeg" :=
  (url_mime_normalization [] ("blob:1")).2.2 ("audio/mpeg") (by decide) (by decide)

/-- C7: for all interleavings of calls to the orchestrator's `start`
operation, at most one invocation is running (Busy) at a time, and a
`start` issued while already Busy is rejected (leaves the state
unchanged). Modelled from the spec (§4.4, §9): the `useTranscriber` hook
is not among the provided source files. -/
theorem orchestrator_single_flight :
    (∀ evs : List OrchEvent, (orchRun evs).running ≤ 1) ∧
    ∀ s : OrchState, s.busy = true → orchStep s OrchEvent.startCall = s := by
  constructor
  · intro evs
    have h := orch_invariant evs { busy := false, running := 0 } (by simp)
    rw [orchRun] at *
    rw [h]
    split <;> simp
  · intro s hs
    simp [orchStep, hs]

theorem orchestrator_single_flight_witness :
    (orchRun [OrchEvent.startCall, OrchEvent.startCall]).running ≤ 1 ∧
    orchStep { busy := true, running := 1 } OrchEvent.startCall =
      { busy := true, running := 1 } :=
  ⟨orchestrator_single_flight.1 [OrchEvent.startCall, OrchEvent.startCall],
   orchestrator_single_flight.2 { busy := true, running := 1 } rfl⟩

/-- C8: every one of the four source-adapter callbacks signals
`transcriber.onInputChange` as its first action, before any mutation of
Audio Session State (current audio, download URL, batch item list or load
progress). -/
theorem adapters_signal_before_mutation (items : List AudioItem) (url : String)
    (samples : List ℚ) (blobUrl mime : String) (pvs : List ℚ) (tr : List UiAction) :
    tr = testTileCallbackTrace items ∨ tr = urlTileCallbackTrace url ∨
      tr = fileTileCallbackTrace samples blobUrl mime ∨
      tr = recordTileCallbackTrace samples blobUrl mime pvs →
    tr.head? = some UiAction.onInputChange ∧
      ∀ (i : ℕ) (a : UiAction), tr[i]? = some a → isSessionMutation a = true →
        ∃ j : ℕ, j < i ∧ tr[j]? = some UiAction.onInputChange := by
  intro hcases
  rcases hcases with h | h | h | h <;> subst h <;>
    exact ⟨rfl, fun i a hget hmut => head_onInputChange_before_mutation _ i a hget hmut⟩

theorem adapters_signal_before_mutation_witness :
    ∃ j : ℕ, j < 1 ∧ (urlTileCallbackTrace ("u"))[j]? = some UiAction.onInputChange :=
  (adapters_signal_before_mutation [] ("u") [] ("b") ("m") [] (urlTileCallbackTrace ("u"))
      (Or.inr (Or.inl rfl))).2 1 (UiAction.setAudioDownloadUrl (some "u")) (by decide) (by decide)

/-- C9: the code never releases a replaced `DecodedAudio`'s playback blob
handle: the traces of `setAudioFromDownload`, `resetAudio`,
`setAudioFromRecording` and the file adapter contain zero
`URL.revokeObjectURL` calls (the claimed exactly-once release never
happens; the handle is leaked). -/
theorem playback_handle_never_released (samples : List ℚ) (blobUrl mime : String)
    (pvs : List ℚ) :
    releaseCount (setAudioFromDownloadTrace samples blobUrl mime) = 0 ∧
    releaseCount resetAudioTrace = 0 ∧
    releaseCount (setAudioFromRecordingTrace samples blobUrl mime pvs) = 0 ∧
    releaseCount (fileTileCallbackTrace samples blobUrl mime) = 0 := by
  refine ⟨rfl, rfl, ?_, rfl⟩
  simp only [releaseCount, setAudioFromRecordingTrace, resetAudioTrace]
  induction pvs with
  | nil => rfl
  | cons p ps ih => simp

/-- C10: the progress fraction installed by the recording file-read and URL
download progress handlers is always a defined number, never NaN (a NaN
ratio and a missing axios progress field are both replaced by 0). -/
theorem progress_values_never_nan :
    (∀ loaded total : ℕ, recordingProgressValue loaded total ≠ JSNum.nan) ∧
    (∀ loaded total : ℕ, jsDiv loaded total = JSNum.nan →
       recordingProgressValue loaded total = JSNum.num 0) ∧
    (∀ p : Option JSNum, urlProgressValue p ≠ JSNum.nan) ∧
    urlProgressValue none = JSNum.num 0 := by
  refine ⟨?_, ?_, ?_, rfl⟩
  · intro loaded total
    exact jsOrZero_ne_nan _
  · intro loaded total h
    simp [recordingProgressValue, h, jsOrZero]
  · intro p
    cases p with
    | none => simp [urlProgressValue]
    | some x => exact jsOrZero_ne_nan x

theorem progress_values_never_nan_witness :
    recordingProgressValue 0 0 = JSNum.num 0 :=
  progress_values_never_nan.2.1 0 0 (by decide)

lemma batchLoop_length (total : ℕ) (oracle : ℕ → StartOutcome) (i : ℕ)
    (items : List AudioItem) :
    (batchLoop total oracle i items).length = items.length := by
  induction items generalizing i with
  | nil => rfl
  | cons item rest ih => simp [batchLoop, ih]

lemma batchLoop_getElem (total : ℕ) (oracle : ℕ → StartOutcome) (i k : ℕ)
    (items : List AudioItem) :
    (batchLoop total oracle i items)[k]? =
      (items[k]?).map (fun it => batchStepAt total (i + k) it (oracle (i + k))) := by
  induction items generalizing i k with
  | nil => simp [batchLoop]
  | cons item rest ih =>
    cases k with
    | zero => simp [batchLoop]
    | succ n =>
      simp only [batchLoop, List.getElem?_cons_succ]
      have harith : i + 1 + n = i + (n + 1) := by omega
      rw [ih, harith]

/-- C1: batch evaluation over a list of N items produces exactly N result
records, one per item in input order; an item whose `start` call throws or
returns no result still contributes a record at its position, with absent
transcription and latency (the `none` record), and the batch is not
aborted. -/
theorem batch_produces_one_record_per_item (items : List AudioItem)
    (oracle : ℕ → StartOutcome) :
    (batchResults items oracle).length = items.length ∧
    (∀ (i : ℕ) (item : AudioItem), items[i]? = some item →
       (batchResults items oracle)[i]? = some (batchStep item (oracle i))) ∧
    (∀ (i : ℕ) (item : AudioItem), items[i]? = some item →
       oracle i = StartOutcome.throws ∨ oracle i = StartOutcome.noData →
       (batchResults items oracle)[i]? = some none) := by
  have hget : ∀ (i : ℕ) (item : AudioItem), items[i]? = some item →
      (batchResults items oracle)[i]? = some (batchStep item (oracle i)) := by
    intro i item hi
    simp only [batchResults, transcribeAllFiles, List.getElem?_map,
      batchLoop_getElem, hi, Option.map_some', Nat.zero_add, batchStepAt]
  refine ⟨?_, hget, ?_⟩
  · simp [batchResults, transcribeAllFiles, batchLoop_length]
  · intro i item hi hfail
    have h := hget i item hi
    rcases hfail with hf | hf <;> rw [hf] at h <;> simpa [batchStep] using h

theorem batch_produces_one_record_per_item_witness :
    (batchResults [⟨[], "u0", AudioSource.TEST, "audio/wav", "f01", "hello"⟩]
        (fun _ => StartOutcome.throws))[0]? = some none :=
  (batch_produces_one_record_per_item
      [⟨[], "u0", AudioSource.TEST, "audio/wav", "f01", "hello"⟩]
      (fun _ => StartOutcome.throws)).2.2 0
    ⟨[], "u0", AudioSource.TEST, "audio/wav", "f01", "hello"⟩ (by decide) (Or.inl rfl)

lemma batchProgress_getElem (items : List AudioItem) (oracle : ℕ → StartOutcome) (j : ℕ) :
    (batchProgressTrace items oracle)[j]? =
      if j ≤ items.length then some ((j : ℚ) / (items.length : ℚ) * 100) else none := by
  cases j with
  | zero => simp [batchProgressTrace]
  | succ n =>
    simp only [batchProgressTrace, List.getElem?_cons_succ, List.getElem?_map,
      transcribeAllFiles, batchLoop_getElem, Nat.zero_add]
    rcases Nat.lt_or_ge n items.length with hn | hn
    · have : items[n]? = some items[n] := List.getElem?_eq_getElem hn
      rw [this]
      simp only [Option.map_some', batchStepAt]
      rw [if_pos (by omega)]
      push_cast
      ring_nf
    · have : items[n]? = none := List.getElem?_eq_none hn
      rw [this]
      rw [if_neg (by omega)]
      rfl

/-- C4: during batch evaluation over N items the reported progress is
monotonically non-decreasing, equals `((i + 1) / N) * 100` after item `i`
settles (success or failure alike — the update is unconditional), and a
reported value of 100 occurs only at the final update, after the last item
settles. -/
theorem batch_progress_spec (items : List AudioItem) (oracle : ℕ → StartOutcome) :
    (∀ (a b : ℕ) (x y : ℚ), a ≤ b →
       (batchProgressTrace items oracle)[a]? = some x →
       (batchProgressTrace items oracle)[b]? = some y → x ≤ y) ∧
    (∀ i : ℕ, i < items.length →
       (batchProgressTrace items oracle)[i + 1]? =
         some (((i : ℚ) + 1) / (items.length : ℚ) * 100)) ∧
    (0 < items.length →
       (batchProgressTrace items oracle)[items.length]? = some 100 ∧
       (batchProgressTrace items oracle).length = items.length + 1) ∧
    (∀ (j : ℕ) (x : ℚ), (batchProgressTrace items oracle)[j]? = some x → x = 100 →
       j = items.length) := by
  refine ⟨?_, ?_, ?_, ?_⟩
  · intro a b x y hab hx hy
    rw [batchProgress_getElem] at hx hy
    have hbN : b ≤ items.length := by
      by_contra hc
      rw [if_neg hc] at hy
      exact absurd hy (by simp)
    rw [if_pos hbN] at hy
    rw [if_pos (le_trans hab hbN)] at hx
    obtain ⟨rfl⟩ : x = (a : ℚ) / (items.length : ℚ) * 100 := by
      simpa using hx.symm
    obtain ⟨rfl⟩ : y = (b : ℚ) / (items.length : ℚ) * 100 := by
      simpa using hy.symm
    rcases Nat.eq_zero_or_pos items.length with hN | hN
    · have ha0 : a = 0 := by omega
      have hb0 : b = 0 := by omega
      simp [ha0, hb0]
    · gcongr
  · intro i hi
    rw [batchProgress_getElem, if_pos (by omega)]
    push_cast
    ring_nf
  · intro hN
    have hNq : (items.length : ℚ) ≠ 0 := by
      exact_mod_cast Nat.pos_iff_ne_zero.mp hN
    constructor
    · rw [batchProgress_getElem, if_pos (le_refl _)]
      rw [div_self hNq]
      norm_num
    · simp [batchProgressTrace, transcribeAllFiles, batchLoop_length]
  · intro j x hj hx
    rw [batchProgress_getElem] at hj
    by_cases hjN : j ≤ items.length
    · rw [if_pos hjN] at hj
      have hxval : x = (j : ℚ) / (items.length : ℚ) * 100 := by
        simpa using hj.symm
      rw [hx] at hxval
      rcases Nat.eq_zero_or_pos items.length with hN | hN
      · rw [hN] at hxval
        norm_num at hxval
      · have hNq : (items.length : ℚ) ≠ 0 := by
          exact_mod_cast Nat.pos_iff_ne_zero.mp hN
        have hj2 : (j : ℚ) = (items.length : ℚ) := by
          field_simp at hxval
          linarith
        exact_mod_cast hj2
    · rw [if_neg hjN] at hj
      exact absurd hj (by simp)

theorem batch_progress_spec_witness :
    (batchProgressTrace [⟨[], "u1", AudioSource.TEST, "audio/wav", "f02", "world"⟩]
        (fun _ => StartOutcome.noData))[1]? = some 100 ∧
    (batchProgressTrace [⟨[], "u1", AudioSource.TEST, "audio/wav", "f02", "world"⟩]
        (fun _ => StartOutcome.noData)).length = 2 :=
  (batch_progress_spec [⟨[], "u1", AudioSource.TEST, "audio/wav", "f02", "world"⟩]
      (fun _ => StartOutcome.noData)).2.2.1 (by decide)

/-- An environment in which the manifest fetch itself throws. -/
def failingManifestEnv : TestEnv :=
  { manifest := Except.error ()
    audioFetch := fun _ => Except.error () }

/-- C3 counterexample: when the manifest fetch fails, `handleClick`'s outer
catch only logs — `onFilesLoaded` is never invoked, so no list (in
particular not the empty list) is produced, contradicting the claim that
the produced list is the empty list. -/
theorem test_corpus_manifest_failure_counterexample :
    testTileHandleClick failingManifestEnv = none ∧
      testTileHandleClick failingManifestEnv ≠ some [] := by
  constructor
  · rfl
  · decide

/-- C3 (amended): a manifest line whose audio fetch or decode fails — or
that contains no space — is skipped while processing of the remaining
lines continues; if the manifest fetch itself fails, the whole operation
aborts producing no list at all (the completion callback is never
invoked, so the previously loaded item list is left unchanged), rather
than producing an empty list. -/
theorem test_corpus_error_policy (env : TestEnv) :
    (∀ e : Unit, env.manifest = Except.error e → testTileHandleClick env = none) ∧
    (∀ text : String, env.manifest = Except.ok text →
       testTileHandleClick env = some (collectItems env (manifestLines text))) ∧
    (∀ (line : String) (rest : List String) (idx : ℕ),
       firstSpaceIdx line.toList = some idx →
       env.audioFetch (String.mk (line.toList.take idx)) = Except.error () →
       collectItems env (line :: rest) = collectItems env rest) ∧
    (∀ (line : String) (rest : List String),
       firstSpaceIdx line.toList = none →
       collectItems env (line :: rest) = collectItems env rest) := by
  refine ⟨?_, ?_, ?_, ?_⟩
  · intro e he
    simp [testTileHandleClick, he]
  · intro text ht
    simp [testTileHandleClick, ht]
  · intro line rest idx hidx hfail
    have hidx2 : firstSpaceIdx line.data = some idx := hidx
    have hfail2 : env.audioFetch (String.mk (List.take idx line.data)) = Except.error () := hfail
    simp [collectItems, hidx2, hfail2]
  · intro line rest hnone
    have hnone2 : firstSpaceIdx line.data = none := hnone
    simp [collectItems, hnone2]

/-- A mixed environment: the manifest is readable, the audio for `A01`
fails to fetch, the audio for `A02` succeeds. -/
def mixedTestEnv : TestEnv :=
  { manifest := Except.ok ("A01 hello\nA02 world")
    audioFetch := fun f =>
      if f = "A01" then Except.error () else Except.ok ([1], some "audio/flac") }

theorem test_corpus_error_policy_witness :
    testTileHandleClick mixedTestEnv =
      some (collectItems mixedTestEnv (manifestLines ("A01 hello\nA02 world"))) ∧
    collectItems mixedTestEnv [("A01 hello"), ("A02 world")] =
      collectItems mixedTestEnv [("A02 world")] :=
  ⟨(test_corpus_error_policy mixedTestEnv).2.1 ("A01 hello\nA02 world") rfl,
   (test_corpus_error_policy mixedTestEnv).2.2.1 ("A01 hello") [("A02 world")] 3
     (by decide) rfl⟩

/-- C6: in every valid URL-load trace, a load that was still in flight
when a newer load started can only settle as `aborted` (its underlying
transfer is aborted by the effect cleanup), and an aborted settle never
touches `audioData` — so the superseded fetch's result never becomes the
active `DecodedAudio`. -/
theorem url_stale_result_never_installed (tr : List UrlEvent) (k k' i j : ℕ)
    (out : FetchOutcome) :
    validUrlTrace tr = true →
    k < k' →
    tr[k]? = some (UrlEvent.start j) →
    tr[k']? = some (UrlEvent.settle i out) →
    i < j →
    out = FetchOutcome.aborted ∧
      ∀ st : SessState, (stepUrlEvent st (UrlEvent.settle i out)).audioData = st.audioData := by
  intro hvalid hkk hk hk' hij
  have hlen : k' < tr.length := by
    have := List.getElem?_eq_some.mp hk'
    exact this.1
  have hall := List.all_eq_true.mp hvalid
  have hk'mem : k' ∈ List.range tr.length := List.mem_range.mpr hlen
  have hcheck := hall k' hk'mem
  rw [hk'] at hcheck
  simp only [Bool.and_eq_true, List.all_eq_true] at hcheck
  have hinner := hcheck.2 k (List.mem_range.mpr hkk)
  rw [hk] at hinner
  simp only [Bool.or_eq_true, Bool.not_eq_true', decide_eq_false_iff_not, beq_iff_eq] at hinner
  have hout : out = FetchOutcome.aborted := by
    rcases hinner with h | h
    · exact absurd hij (by simpa using h)
    · exact h
  subst hout
  exact ⟨rfl, fun st => rfl⟩

/-- A concrete valid trace: load 0 starts, load 1 starts while load 0 is
still in flight, load 0 then settles (necessarily aborted), load 1
succeeds. -/
def staleTrace : List UrlEvent :=
  [UrlEvent.start 0, UrlEvent.start 1, UrlEvent.settle 0 FetchOutcome.aborted,
   UrlEvent.settle 1 (FetchOutcome.success [1] ("blob:2") ("audio/wav"))]

theorem url_stale_result_never_installed_witness :
    FetchOutcome.aborted = FetchOutcome.aborted ∧
      ∀ st : SessState,
        (stepUrlEvent st (UrlEvent.settle 0 FetchOutcome.aborted)).audioData = st.audioData :=
  url_stale_result_never_installed staleTrace 1 2 0 1 FetchOutcome.aborted (by decide)
    (by decide) (by decide) (by decide) (by decide)

lemma toList_append (a b : String) : (a ++ b).toList = a.toList ++ b.toList := by
  cases a
  cases b
  rfl

lemma splitNl_no_newline (a : List Char) (h : '\n' ∉ a) : splitNl a = [a] := by
  induction a with
  | nil => rfl
  | cons c rest ih =>
    have hc : ¬c = '\n' := fun hh => h (hh ▸ List.mem_cons_self c rest)
    have hrest : '\n' ∉ rest := fun hh => h (List.mem_cons_of_mem c hh)
    simp only [splitNl, if_neg hc, ih hrest]

lemma splitNl_append_cons (a rest : List Char) (h : '\n' ∉ a) :
    splitNl (a ++ '\n' :: rest) = a :: splitNl rest := by
  induction a with
  | nil => simp [splitNl]
  | cons c tl ih =>
    have hc : ¬c = '\n' := fun hh => h (hh ▸ List.mem_cons_self c tl)
    have htl : '\n' ∉ tl := fun hh => h (List.mem_cons_of_mem c hh)
    simp only [List.cons_append, splitNl, if_neg hc, List.append_eq]
    rw [ih htl]

/-- The expected line structure of an exported report: three lines per
record, in order. -/
def linesOf : List BatchRecord → List (List Char)
  | [] => []
  | r :: rest =>
    (latencyToString r.latency).toList :: (jsTrim (jsToLower r.groundTruth)).toList ::
      (jsTrim (jsToLower r.transcription)).toList :: linesOf rest

lemma formatRecord_toList (r : BatchRecord) :
    (formatRecord r).toList =
      (latencyToString r.latency).toList ++ '\n' ::
        ((jsTrim (jsToLower r.groundTruth)).toList ++ '\n' ::
          (jsTrim (jsToLower r.transcription)).toList) := by
  simp [formatRecord, toList_append]

lemma splitNl_export (rs : List BatchRecord) (hne : rs ≠ [])
    (h : ∀ r ∈ rs, newlineFree r) :
    splitNl (exportReport rs).toList = linesOf rs := by
  induction rs with
  | nil => exact absurd rfl hne
  | cons r rest ih =>
    have hr := h r (List.mem_cons_self r rest)
    obtain ⟨h1, h2, h3⟩ := hr
    cases rest with
    | nil =>
      simp only [exportReport, List.map_cons, List.map_nil, joinLines]
      rw [formatRecord_toList]
      rw [splitNl_append_cons _ _ h1, splitNl_append_cons _ _ h2, splitNl_no_newline _ h3]
      rfl
    | cons r2 rest2 =>
      have hrest : ∀ x ∈ r2 :: rest2, newlineFree x := fun x hx =>
        h x (List.mem_cons_of_mem r hx)
      have hexp : exportReport (r :: r2 :: rest2) =
          formatRecord r ++ "\n" ++ exportReport (r2 :: rest2) := by
        simp [exportReport, joinLines]
      rw [hexp]
      rw [toList_append, toList_append, formatRecord_toList]
      have hnl : ("\n" : String).toList = ['\n'] := rfl
      rw [hnl]
      have hassoc :
          ((latencyToString r.latency).toList ++ '\n' ::
              ((jsTrim (jsToLower r.groundTruth)).toList ++ '\n' ::
                (jsTrim (jsToLower r.transcription)).toList) ++ ['\n']) ++
              (exportReport (r2 :: rest2)).toList =
            (latencyToString r.latency).toList ++ '\n' ::
              ((jsTrim (jsToLower r.groundTruth)).toList ++ '\n' ::
                ((jsTrim (jsToLower r.transcription)).toList ++ '\n' ::
                  (exportReport (r2 :: rest2)).toList)) := by
        simp
      rw [hassoc]
      rw [splitNl_append_cons _ _ h1, splitNl_append_cons _ _ h2, splitNl_append_cons _ _ h3]
      rw [ih (by simp) hrest]
      rfl

lemma mk_toList (s : String) : String.mk s.toList = s := rfl

lemma chunk3_linesOf (rs : List BatchRecord) :
    chunk3 ((linesOf rs).map String.mk) = rs.map recordStrings := by
  induction rs with
  | nil => rfl
  | cons r rest ih =>
    simp only [linesOf, List.map_cons, chunk3, ih, recordStrings, mk_toList]

lemma linesOf_length (rs : List BatchRecord) : (linesOf rs).length = 3 * rs.length := by
  induction rs with
  | nil => rfl
  | cons r rest ih =>
    simp only [linesOf, List.length_cons, ih, List.length_cons]
    ring

/-- A record containing an embedded newline in its transcription. -/
def newlineRecord : BatchRecord :=
  { filename := "f03", groundTruth := "g", transcription := "a\nb", latency := 1 }

/-- C5 counterexample: for a successfully transcribed record whose
transcription contains an interior newline, the exported text is not one
three-line block for the record, and parsing it back does not recover the
record's (case-folded, trimmed) transcription string. -/
theorem report_roundtrip_counterexample :
    parseReport (exportReport [newlineRecord]) ≠ [recordStrings newlineRecord] ∧
      (splitNl (exportReport [newlineRecord]).toList).length ≠ 3 * 1 := by
  constructor
  · decide
  · decide

/-- C5 (amended): for every list of successful result records none of
whose exported line strings (stringified latency, lowercased trimmed
ground truth, lowercased trimmed transcription) contains an interior
newline, the exported report consists of exactly three lines per record
and parsing it back recovers all three strings of every record, in
order. -/
theorem report_roundtrip (rs : List BatchRecord) (h : ∀ r ∈ rs, newlineFree r) :
    parseReport (exportReport rs) = rs.map recordStrings ∧
      (rs ≠ [] → (splitNl (exportReport rs).toList).length = 3 * rs.length) := by
  constructor
  · cases rs with
    | nil => rfl
    | cons r rest =>
      unfold parseReport
      rw [splitNl_export (r :: rest) (by simp) h]
      exact chunk3_linesOf (r :: rest)
  · intro hne
    rw [splitNl_export rs hne h]
    exact linesOf_length rs

instance (r : BatchRecord) : Decidable (newlineFree r) := by
  unfold newlineFree
  exact inferInstance

/-- A well-formed record for the round-trip witness. -/
def cleanRecord : BatchRecord :=
  { filename := "f04", groundTruth := " The QUICK Fox ", transcription := "Hello World", latency := 2 }

theorem report_roundtrip_witness :
    parseReport (exportReport [cleanRecord]) = [cleanRecord].map recordStrings ∧
      ([cleanRecord] ≠ ([] : List BatchRecord) →
        (splitNl (exportReport [cleanRecord]).toList).length = 3 * 1) :=
  report_roundtrip [cleanRecord] (by decide)
